import Mathlib

set_option maxHeartbeats 1000000

/-!
Verification of the UniTrack attendance system against its specification.
The definitions below are shallow embeddings of the Python source:
`unitrack/core/calculator.py`, `unitrack/core/config.py`,
`unitrack/core/scraper.py`, `unitrack/core/discovery.py` and
`backend/app.py`.  Machine integers are modelled as `Int`, Python floats
as exact rationals `ℚ`, and Python `round` as round-half-to-even.
-/

/-- Prefix test on character lists (Python `startswith` on the raw chars). -/
def charsPre : List Char → List Char → Bool
  | [], _ => true
  | _ :: _, [] => false
  | a :: as, b :: bs => a == b && charsPre as bs

/-- Substring search on character lists. -/
def charsSub (needle : List Char) : List Char → Bool
  | [] => needle.isEmpty
  | b :: bs => charsPre needle (b :: bs) || charsSub needle bs

/-- Python `needle in hay` substring containment on strings. -/
def strHasSub (hay needle : String) : Bool := charsSub needle.toList hay.toList

/-- Python `str.upper()` (ASCII, as exercised by the code). -/
def strUpper (s : String) : String := ⟨s.data.map Char.toUpper⟩

/-- Python `str.lower()` (ASCII, as exercised by the code). -/
def strLower (s : String) : String := ⟨s.data.map Char.toLower⟩

/-- Python `str.strip()`: drop whitespace from both ends. -/
def strTrim (s : String) : String :=
  ⟨((s.data.dropWhile Char.isWhitespace).reverse.dropWhile Char.isWhitespace).reverse⟩

/-- Python round-half-to-even of a rational to the nearest integer. -/
def rround (x : ℚ) : ℤ :=
  let n := Int.floor x
  let r := x - n
  if r < 1/2 then n
  else if r > 1/2 then n + 1
  else if n % 2 = 0 then n else n + 1

/-- Python `round(x, 2)` on exact rationals (as used on the computed
percentages throughout the code base). -/
def pyRound2 (x : ℚ) : ℚ := (rround (x * 100) : ℚ) / 100

/-- `Thresholds` dataclass from `unitrack/core/config.py`.  The `custom`
dict is modelled as an association list in insertion order. -/
structure Thresholds where
  default : ℚ
  safe_buffer : ℚ
  custom : List (String × ℚ)
deriving DecidableEq

/-- The keyword scan of `Thresholds.get_threshold`: the first custom entry
whose keyword, uppercased, occurs in the uppercased subject name. -/
def firstKeyword (custom : List (String × ℚ)) (subject_name : String) : Option ℚ :=
  match custom with
  | [] => none
  | (kw, v) :: rest =>
    if strHasSub (strUpper subject_name) (strUpper kw) then some v
    else firstKeyword rest subject_name

/-- `Thresholds.get_threshold` from `unitrack/core/config.py`.  Python's
truthiness of the optional arguments is the emptiness test on strings. -/
def get_threshold (th : Thresholds) (subject_code subject_name : String) : ℚ :=
  match (if subject_code ≠ "" then List.lookup subject_code th.custom else none) with
  | some v => v
  | none =>
    match (if subject_name ≠ "" then firstKeyword th.custom subject_name else none) with
    | some v => v
    | none => th.default

/-- `AttendanceCalculator.calculate_status` from `unitrack/core/calculator.py`. -/
def calculate_status (th : Thresholds) (percentage threshold : ℚ) : String :=
  if percentage ≥ threshold + th.safe_buffer then "SAFE"
  else if percentage ≥ threshold then "CRITICAL"
  else "LOW"

/-- `AttendanceCalculator.calculate_classes_needed` from
`unitrack/core/calculator.py`. -/
def calculate_classes_needed (attended conducted : ℤ) (threshold : ℚ) : ℤ :=
  if conducted = 0 then 0
  else
    let threshold_decimal := threshold / 100
    let current := (attended : ℚ) / (conducted : ℚ)
    if current ≥ threshold_decimal then 0
    else
      let numerator := threshold_decimal * (conducted : ℚ) - (attended : ℚ)
      let denominator := 1 - threshold_decimal
      if denominator = 0 then 0
      else Int.ceil (numerator / denominator)

/-- `AttendanceCalculator.calculate_classes_can_miss` from
`unitrack/core/calculator.py`. -/
def calculate_classes_can_miss (attended conducted : ℤ) (threshold : ℚ) : ℤ :=
  if conducted = 0 then 0
  else
    let threshold_decimal := threshold / 100
    let current := (attended : ℚ) / (conducted : ℚ)
    if current < threshold_decimal then 0
    else
      let numerator := (attended : ℚ) - threshold_decimal * (conducted : ℚ)
      let denominator := threshold_decimal
      if denominator = 0 then 0
      else Int.floor (numerator / denominator)

/-- C1 counterexample: with buffer `b = 0` the code classifies
`status(threshold, threshold, 0)` as `SAFE`, not `CRITICAL` as the claim
states for every buffer. -/
theorem C1_counterexample :
    calculate_status ⟨75, 0, []⟩ 75 75 = "SAFE" ∧
    calculate_status ⟨75, 0, []⟩ 75 75 ≠ "CRITICAL" := by
  have h : calculate_status ⟨75, 0, []⟩ 75 75 = "SAFE" := by
    unfold calculate_status
    rw [if_pos (by norm_num)]
  exact ⟨h, by rw [h]; decide⟩

/-- C1 (amended): `SAFE` holds exactly when `pct ≥ t + b` and `CRITICAL`
exactly when `t ≤ pct < t + b`; `LOW` holds exactly when `pct < t`
provided `b ≥ 0`; the lower bound of the `SAFE` band is inclusive, and the
lower bound of the `CRITICAL` band is inclusive whenever `b > 0`. -/
theorem C1_status_bands (th : Thresholds) (pct t : ℚ) :
    (calculate_status th pct t = "SAFE" ↔ pct ≥ t + th.safe_buffer) ∧
    (calculate_status th pct t = "CRITICAL" ↔ t ≤ pct ∧ pct < t + th.safe_buffer) ∧
    (0 ≤ th.safe_buffer → (calculate_status th pct t = "LOW" ↔ pct < t)) ∧
    calculate_status th (t + th.safe_buffer) t = "SAFE" ∧
    (0 < th.safe_buffer → calculate_status th t t = "CRITICAL") := by
  have hs : ∀ p : ℚ, calculate_status th p t =
      if p ≥ t + th.safe_buffer then "SAFE" else if p ≥ t then "CRITICAL" else "LOW" :=
    fun p => rfl
  refine ⟨?_, ?_, ?_, ?_, ?_⟩
  · rw [hs]
    split_ifs with h1 h2
    · exact iff_of_true rfl h1
    · exact iff_of_false (by decide) h1
    · exact iff_of_false (by decide) h1
  · rw [hs]
    split_ifs with h1 h2
    · exact iff_of_false (by decide) (fun hh => (not_lt.mpr h1) hh.2)
    · exact iff_of_true rfl ⟨h2, not_le.mp h1⟩
    · exact iff_of_false (by decide) (fun hh => h2 hh.1)
  · intro hb
    rw [hs]
    split_ifs with h1 h2
    · exact iff_of_false (by decide) (not_lt.mpr (by linarith))
    · exact iff_of_false (by decide) (not_lt.mpr h2)
    · exact iff_of_true rfl (not_le.mp h2)
  · rw [hs, if_pos (le_refl (t + th.safe_buffer))]
  · intro hb
    rw [hs, if_neg (not_le.mpr (by linarith)), if_pos (le_refl t)]

/-- C1 witness: with the default configuration (threshold 75, buffer 10)
the boundary points are classified as the amended claim states. -/
theorem C1_status_bands_witness :
    calculate_status ⟨75, 10, []⟩ 75 75 = "CRITICAL" ∧
    calculate_status ⟨75, 10, []⟩ 85 75 = "SAFE" := by
  constructor
  · exact (C1_status_bands ⟨75, 10, []⟩ 75 75).2.2.2.2 (by norm_num)
  · exact (C1_status_bands ⟨75, 10, []⟩ 85 75).1.mpr (by norm_num)

/-- C2: `calculate_classes_needed` returns 0 when no classes were
conducted or the current ratio already meets the threshold, returns 0 at
the degenerate threshold 100, and otherwise returns
`ceil((t/100·conducted − attended) / (1 − t/100))`; in particular
`classesNeeded(50, 100, 75) = 100`. -/
theorem C2_classes_needed (attended conducted : ℤ) (threshold : ℚ)
    (ha : 0 ≤ attended) (hc : 0 ≤ conducted) :
    (conducted = 0 ∨ (attended : ℚ) / (conducted : ℚ) ≥ threshold / 100 →
      calculate_classes_needed attended conducted threshold = 0) ∧
    (threshold = 100 → calculate_classes_needed attended conducted threshold = 0) ∧
    (conducted ≠ 0 → (attended : ℚ) / (conducted : ℚ) < threshold / 100 → threshold ≠ 100 →
      calculate_classes_needed attended conducted threshold =
        Int.ceil ((threshold / 100 * (conducted : ℚ) - (attended : ℚ)) / (1 - threshold / 100))) ∧
    calculate_classes_needed 50 100 75 = 100 := by
  refine ⟨?_, ?_, ?_, ?_⟩
  · rintro (h | h)
    · unfold calculate_classes_needed
      rw [if_pos h]
    · unfold calculate_classes_needed
      dsimp only
      by_cases h1 : conducted = 0
      · rw [if_pos h1]
      · rw [if_neg h1, if_pos h]
  · intro h
    subst h
    unfold calculate_classes_needed
    dsimp only
    by_cases h1 : conducted = 0
    · rw [if_pos h1]
    · rw [if_neg h1]
      by_cases h2 : (attended : ℚ) / (conducted : ℚ) ≥ 100 / 100
      · rw [if_pos h2]
      · rw [if_neg h2, if_pos (by norm_num)]
  · intro h1 h2 h3
    unfold calculate_classes_needed
    dsimp only
    rw [if_neg h1, if_neg (not_le.mpr h2), if_neg ?_]
    intro h0
    apply h3
    linarith
  · unfold calculate_classes_needed
    dsimp only
    rw [if_neg (by norm_num), if_neg (by norm_num), if_neg (by norm_num)]
    norm_num

/-- C2 witness: the concrete instance from the specification. -/
theorem C2_classes_needed_witness : calculate_classes_needed 50 100 75 = 100 :=
  (C2_classes_needed 50 100 75 (by norm_num) (by norm_num)).2.2.2

/-- C3 counterexample: the claim asserts `classesCanMiss(70, 90, 75) = 6`,
but the code computes `floor((70 − 0.75·90)/0.75) = floor(10/3) = 3`. -/
theorem C3_counterexample :
    calculate_classes_can_miss 70 90 75 = 3 ∧
    calculate_classes_can_miss 70 90 75 ≠ 6 := by
  have h : calculate_classes_can_miss 70 90 75 = 3 := by
    unfold calculate_classes_can_miss
    dsimp only
    rw [if_neg (by norm_num), if_neg (by norm_num), if_neg (by norm_num)]
    norm_num
  exact ⟨h, by rw [h]; decide⟩

/-- C3 (amended): `calculate_classes_can_miss` returns 0 when no classes
were conducted or the current ratio is below the threshold, returns 0 at
the degenerate threshold 0, and otherwise returns
`floor((attended − t/100·conducted) / (t/100))`; in particular
`classesCanMiss(70, 90, 75) = 3` (not 6 as the claim stated). -/
theorem C3_classes_can_miss (attended conducted : ℤ) (threshold : ℚ)
    (ha : 0 ≤ attended) (hc : 0 ≤ conducted) :
    (conducted = 0 ∨ (attended : ℚ) / (conducted : ℚ) < threshold / 100 →
      calculate_classes_can_miss attended conducted threshold = 0) ∧
    (threshold = 0 → calculate_classes_can_miss attended conducted threshold = 0) ∧
    (conducted ≠ 0 → (attended : ℚ) / (conducted : ℚ) ≥ threshold / 100 → threshold ≠ 0 →
      calculate_classes_can_miss attended conducted threshold =
        Int.floor (((attended : ℚ) - threshold / 100 * (conducted : ℚ)) / (threshold / 100))) ∧
    calculate_classes_can_miss 70 90 75 = 3 := by
  refine ⟨?_, ?_, ?_, ?_⟩
  · rintro (h | h)
    · unfold calculate_classes_can_miss
      rw [if_pos h]
    · unfold calculate_classes_can_miss
      dsimp only
      by_cases h1 : conducted = 0
      · rw [if_pos h1]
      · rw [if_neg h1, if_pos h]
  · intro h
    subst h
    unfold calculate_classes_can_miss
    dsimp only
    by_cases h1 : conducted = 0
    · rw [if_pos h1]
    · have hge : (0 : ℚ) / 100 ≤ (attended : ℚ) / (conducted : ℚ) := by
        rw [zero_div]
        exact div_nonneg (by exact_mod_cast ha) (by exact_mod_cast hc)
      rw [if_neg h1, if_neg (not_lt.mpr hge), if_pos (by norm_num)]
  · intro h1 h2 h3
    unfold calculate_classes_can_miss
    dsimp only
    rw [if_neg h1, if_neg (not_lt.mpr h2), if_neg ?_]
    intro h0
    apply h3
    linarith
  · unfold calculate_classes_can_miss
    dsimp only
    rw [if_neg (by norm_num), if_neg (by norm_num), if_neg (by norm_num)]
    norm_num

/-- C3 witness: the corrected concrete instance. -/
theorem C3_classes_can_miss_witness : calculate_classes_can_miss 70 90 75 = 3 :=
  (C3_classes_can_miss 70 90 75 (by norm_num) (by norm_num)).2.2.2

/-- C4: threshold resolution precedence — an exact (truthy) subject-code
match in `custom` wins; otherwise the first custom entry whose keyword is
a case-insensitive substring of the (truthy) subject name wins; otherwise
the default; in particular `custom = [("TYL", 90)]` with subject name
"TYL Lab" resolves to 90. -/
theorem C4_threshold_resolution (th : Thresholds) (code name : String) :
    (code ≠ "" → ∀ v, List.lookup code th.custom = some v → get_threshold th code name = v) ∧
    ((code = "" ∨ List.lookup code th.custom = none) → name ≠ "" →
      ∀ v, firstKeyword th.custom name = some v → get_threshold th code name = v) ∧
    ((code = "" ∨ List.lookup code th.custom = none) →
      (name = "" ∨ firstKeyword th.custom name = none) →
      get_threshold th code name = th.default) ∧
    get_threshold ⟨75, 10, [("TYL", 90)]⟩ "" "TYL Lab" = 90 := by
  refine ⟨?_, ?_, ?_, ?_⟩
  · intro hc v hv
    unfold get_threshold
    rw [if_pos hc, hv]
  · intro hc hn v hv
    have hnone : (if code ≠ "" then List.lookup code th.custom else none) = none := by
      rcases hc with hc | hc
      · rw [if_neg (fun hne => hne hc)]
      · by_cases hcc : code ≠ ""
        · rw [if_pos hcc]; exact hc
        · rw [if_neg hcc]
    unfold get_threshold
    rw [hnone, if_pos hn, hv]
  · intro hc hn
    have hnone : (if code ≠ "" then List.lookup code th.custom else none) = none := by
      rcases hc with hc | hc
      · rw [if_neg (fun hne => hne hc)]
      · by_cases hcc : code ≠ ""
        · rw [if_pos hcc]; exact hc
        · rw [if_neg hcc]
    have hnone2 : (if name ≠ "" then firstKeyword th.custom name else none) = none := by
      rcases hn with hn | hn
      · rw [if_neg (fun hne => hne hn)]
      · by_cases hnn : name ≠ ""
        · rw [if_pos hnn]; exact hn
        · rw [if_neg hnn]
    unfold get_threshold
    rw [hnone, hnone2]
  · rfl

/-- C4 witness: concrete resolution through each of the three rules. -/
theorem C4_threshold_resolution_witness :
    get_threshold ⟨75, 10, [("CS101", 85)]⟩ "CS101" "Data Structures" = 85 ∧
    get_threshold ⟨75, 10, [("TYL", 90)]⟩ "X9" "TYL Lab" = 90 ∧
    get_threshold ⟨75, 10, [("TYL", 90)]⟩ "X9" "Physics" = 75 := by
  refine ⟨?_, ?_, ?_⟩
  · exact (C4_threshold_resolution ⟨75, 10, [("CS101", 85)]⟩ "CS101" "Data Structures").1
      (by decide) 85 rfl
  · exact (C4_threshold_resolution ⟨75, 10, [("TYL", 90)]⟩ "X9" "TYL Lab").2.1
      (Or.inr rfl) (by decide) 90 rfl
  · exact (C4_threshold_resolution ⟨75, 10, [("TYL", 90)]⟩ "X9" "Physics").2.2.1
      (Or.inr rfl) (Or.inr rfl)

/-- Raw record as read by `UniversalScraper._process_attendance`
(`unitrack/core/scraper.py`): each field is the value found under the
configured field-mapping key, `none` when the key is absent (the `dict.get`
defaults are applied in the processing step).  The raw `total` field is
carried but never read — the code recomputes total. -/
structure ScraperItem where
  subject : Option String
  subject_code : Option String
  present : Option ℤ
  absent : Option ℤ
  total : Option ℤ
  faculty : Option String
  term : Option String
deriving DecidableEq

/-- Processed attendance record produced by
`UniversalScraper._process_attendance`. -/
structure SRecord where
  subject : String
  subject_code : String
  present : ℤ
  absent : ℤ
  total : ℤ
  percentage : ℚ
  faculty : String
  term : String
deriving DecidableEq

/-- Per-item body of `UniversalScraper._process_attendance`. -/
def scraper_process_item (it : ScraperItem) : SRecord :=
  let present := it.present.getD 0
  let absent := it.absent.getD 0
  let total := present + absent
  let percentage : ℚ := if total > 0 then (present : ℚ) / (total : ℚ) * 100 else 0
  ⟨it.subject.getD "Unknown", it.subject_code.getD "", present, absent, total,
    pyRound2 percentage, strTrim (it.faculty.getD ""), it.term.getD ""⟩

/-- `UniversalScraper._process_attendance`: every raw record is converted
in order; no deduplication is performed. -/
def scraper_process (l : List ScraperItem) : List SRecord := l.map scraper_process_item

/-- Raw record as read by `process_attendance` in `backend/app.py`; each
field is `none` when the key is absent.  The raw `total` field is carried
but never read. -/
structure BItem where
  subject : Option String
  subjectName : Option String
  subjectCode : Option String
  code : Option String
  presentCount : Option ℤ
  present : Option ℤ
  absentCount : Option ℤ
  absent : Option ℤ
  total : Option ℤ
  facultName : Option String
  facultyName : Option String
deriving DecidableEq

/-- Processed attendance record produced by the backend
`process_attendance`. -/
structure BRecord where
  subject : String
  subject_code : String
  present : ℤ
  absent : ℤ
  total : ℤ
  percentage : ℚ
  faculty : String
deriving DecidableEq

/-- Python truthiness of `item.get(key)` for a string field. -/
def optTruthy (o : Option String) : Bool :=
  match o with
  | some s => s ≠ ""
  | none => false

/-- Per-item body of the backend `process_attendance` loop: `none` when the
record is skipped (no usable subject name or code), otherwise the
deduplication key together with the normalized record. -/
def backendNorm (item : BItem) : Option (String × BRecord) :=
  let subject_name0 := item.subject.getD (item.subjectName.getD "")
  let subject_code := item.subjectCode.getD (item.code.getD "")
  let nameBad := subject_name0 = "" ∨ strLower subject_name0 ∈ ["unknown", "null", "none", ""]
  if nameBad ∧ subject_code = "" then none
  else
    let subject_name := if nameBad then subject_code else subject_name0
    let key := subject_name ++ "_" ++ subject_code
    let present := item.presentCount.getD (item.present.getD 0)
    let absent := item.absentCount.getD (item.absent.getD 0)
    let total := present + absent
    let percentage : ℚ := if total > 0 then (present : ℚ) / (total : ℚ) * 100 else 0
    let faculty := if optTruthy item.facultName || optTruthy item.facultyName then
        strTrim (item.facultName.getD (item.facultyName.getD ""))
      else ""
    some (key, ⟨subject_name, subject_code, present, absent, total, pyRound2 percentage, faculty⟩)

/-- The backend `process_attendance` loop, with the `seen_subjects` set as
explicit state. -/
def backendProcessAux (seen : List String) : List BItem → List BRecord
  | [] => []
  | item :: rest =>
    match backendNorm item with
    | none => backendProcessAux seen rest
    | some p =>
      if p.1 ∈ seen then backendProcessAux seen rest
      else p.2 :: backendProcessAux (p.1 :: seen) rest

/-- `process_attendance` from `backend/app.py`. -/
def process_attendance (l : List BItem) : List BRecord := backendProcessAux [] l

/-- The `seen_subjects` set after processing a list of raw items. -/
def seenAfter (seen : List String) : List BItem → List String
  | [] => seen
  | item :: rest =>
    match backendNorm item with
    | none => seenAfter seen rest
    | some p => if p.1 ∈ seen then seenAfter seen rest else seenAfter (p.1 :: seen) rest

/-- Rounding fixes zero. -/
lemma pyRound2_zero : pyRound2 0 = 0 := by
  unfold pyRound2 rround
  norm_num

/-- Field facts about every record the backend normalizer emits: the total
is recomputed from present and absent, the percentage is the rounded ratio,
and the deduplication key is built from the normalized identity. -/
lemma backendNorm_fields (item : BItem) (k : String) (r : BRecord)
    (h : backendNorm item = some (k, r)) :
    r.total = r.present + r.absent ∧
    r.percentage = pyRound2 (if 0 < r.total then (r.present : ℚ) / (r.total : ℚ) * 100 else 0) ∧
    k = r.subject ++ "_" ++ r.subject_code := by
  unfold backendNorm at h
  dsimp only at h
  split_ifs at h with hc1 hc2 hc3 hc4
  all_goals injection h with h2
  all_goals injection h2 with hk hr
  all_goals subst hk
  all_goals subst hr
  all_goals refine ⟨rfl, ?_, rfl⟩
  all_goals split_ifs with hx
  all_goals first | rfl | (dsimp only at hx; omega)

/-- Every output of the backend loop is the image of some raw item under
`backendNorm`. -/
lemma backendProcessAux_mem : ∀ (l : List BItem) (seen : List String) (r : BRecord),
    r ∈ backendProcessAux seen l → ∃ (item : BItem) (k : String),
      backendNorm item = some (k, r) := by
  intro l
  induction l with
  | nil => intro seen r h; exact absurd h (List.not_mem_nil r)
  | cons item rest ih =>
    intro seen r h
    cases hn : backendNorm item with
    | none =>
      simp only [backendProcessAux, hn] at h
      exact ih seen r h
    | some p =>
      simp only [backendProcessAux, hn] at h
      by_cases hs : p.1 ∈ seen
      · rw [if_pos hs] at h
        exact ih seen r h
      · rw [if_neg hs] at h
        rcases List.mem_cons.mp h with h1 | h1
        · subst h1
          exact ⟨item, p.1, hn⟩
        · exact ih _ r h1

/-- Field facts about every record the scraper normalizer emits. -/
lemma scraper_item_fields (it : ScraperItem) :
    (scraper_process_item it).total =
      (scraper_process_item it).present + (scraper_process_item it).absent ∧
    (scraper_process_item it).percentage =
      pyRound2 (if 0 < (scraper_process_item it).total then
        ((scraper_process_item it).present : ℚ) / ((scraper_process_item it).total : ℚ) * 100
      else 0) := by
  unfold scraper_process_item
  dsimp only
  refine ⟨rfl, ?_⟩
  split_ifs with h1 <;> rfl

/-- C5: both normalizers recompute `total = present + absent` (the raw
total field is never read) and set
`percentage = round(present/total*100, 2)` when `total > 0`, else 0. -/
theorem C5_normalization :
    (∀ (l : List BItem) (r : BRecord), r ∈ process_attendance l →
      r.total = r.present + r.absent ∧
      (0 < r.total → r.percentage = pyRound2 ((r.present : ℚ) / (r.total : ℚ) * 100)) ∧
      (r.total = 0 → r.percentage = 0)) ∧
    (∀ (l : List ScraperItem) (r : SRecord), r ∈ scraper_process l →
      r.total = r.present + r.absent ∧
      (0 < r.total → r.percentage = pyRound2 ((r.present : ℚ) / (r.total : ℚ) * 100)) ∧
      (r.total = 0 → r.percentage = 0)) := by
  constructor
  · intro l r h
    obtain ⟨item, k, hn⟩ := backendProcessAux_mem l [] r h
    obtain ⟨h1, h2, h3⟩ := backendNorm_fields item k r hn
    refine ⟨h1, ?_, ?_⟩
    · intro hpos
      rw [h2, if_pos hpos]
    · intro hz
      rw [h2, if_neg (by rw [hz]; exact lt_irrefl 0), pyRound2_zero]
  · intro l r h
    obtain ⟨it, hit, heq⟩ := List.mem_map.mp h
    subst heq
    obtain ⟨h1, h2⟩ := scraper_item_fields it
    refine ⟨h1, ?_, ?_⟩
    · intro hpos
      rw [h2, if_pos hpos]
    · intro hz
      rw [h2, if_neg (by rw [hz]; exact lt_irrefl 0), pyRound2_zero]

/-- Concrete raw backend record: the raw total field says 99, which the
normalizer must ignore. -/
def bw : BItem :=
  ⟨some "Math", none, some "M1", none, some 10, none, some 2, none, some 99, none, none⟩

/-- The record `process_attendance [bw]` produces. -/
def brec : BRecord :=
  ⟨"Math", "M1", 10, 2, 12, pyRound2 (((10 : ℤ) : ℚ) / ((12 : ℤ) : ℚ) * 100), ""⟩

/-- C5 witness: the concrete record has its total recomputed as 10 + 2 = 12
(not the raw 99) and the rounded percentage. -/
theorem C5_normalization_witness :
    brec.total = brec.present + brec.absent ∧
    brec.percentage = pyRound2 ((brec.present : ℚ) / (brec.total : ℚ) * 100) := by
  have hm : brec ∈ process_attendance [bw] := by
    have he : process_attendance [bw] = [brec] := rfl
    rw [he]
    exact List.mem_singleton.mpr rfl
  have h := C5_normalization.1 [bw] brec hm
  exact ⟨h.1, h.2.1 (by norm_num [brec])⟩

/-- Splitting the backend loop over an append: the suffix is processed with
the seen-set accumulated over the prefix. -/
lemma backendProcessAux_append (xs : List BItem) : ∀ (s : List String) (ys : List BItem),
    backendProcessAux s (xs ++ ys) =
      backendProcessAux s xs ++ backendProcessAux (seenAfter s xs) ys := by
  induction xs with
  | nil => intro s ys; rfl
  | cons item rest ih =>
    intro s ys
    cases hn : backendNorm item with
    | none =>
      simp only [List.cons_append, backendProcessAux, seenAfter, hn, List.append_eq]
      exact ih s ys
    | some p =>
      by_cases hs : p.1 ∈ s
      · simp only [List.cons_append, backendProcessAux, seenAfter, hn, if_pos hs, List.append_eq]
        exact ih s ys
      · simp only [List.cons_append, backendProcessAux, seenAfter, hn, if_neg hs, List.append_eq]
        rw [ih (p.1 :: s) ys]

/-- Splitting the seen-set accumulation over an append. -/
lemma seenAfter_append (xs : List BItem) : ∀ (s : List String) (ys : List BItem),
    seenAfter s (xs ++ ys) = seenAfter (seenAfter s xs) ys := by
  induction xs with
  | nil => intro s ys; rfl
  | cons item rest ih =>
    intro s ys
    cases hn : backendNorm item with
    | none =>
      simp only [List.cons_append, seenAfter, hn, List.append_eq]
      exact ih s ys
    | some p =>
      by_cases hs : p.1 ∈ s
      · simp only [List.cons_append, seenAfter, hn, if_pos hs, List.append_eq]
        exact ih s ys
      · simp only [List.cons_append, seenAfter, hn, if_neg hs, List.append_eq]
        exact ih (p.1 :: s) ys

/-- The seen-set only grows along the loop. -/
lemma mem_seenAfter (xs : List BItem) : ∀ (s : List String) (a : String),
    a ∈ s → a ∈ seenAfter s xs := by
  induction xs with
  | nil => intro s a h; exact h
  | cons item rest ih =>
    intro s a h
    cases hn : backendNorm item with
    | none =>
      simp only [seenAfter, hn]
      exact ih s a h
    | some p =>
      by_cases hs : p.1 ∈ s
      · simp only [seenAfter, hn, if_pos hs]
        exact ih s a h
      · simp only [seenAfter, hn, if_neg hs]
        exact ih (p.1 :: s) a (List.mem_cons_of_mem _ h)

/-- After processing an item that normalizes, its key is in the seen-set. -/
lemma seenAfter_key (item : BItem) (s : List String) (p : String × BRecord)
    (hn : backendNorm item = some p) (xs : List BItem) :
    p.1 ∈ seenAfter s (item :: xs) := by
  simp only [seenAfter, hn]
  by_cases hs : p.1 ∈ s
  · rw [if_pos hs]
    exact mem_seenAfter xs s p.1 hs
  · rw [if_neg hs]
    exact mem_seenAfter xs (p.1 :: s) p.1 (List.mem_cons_self _ _)

/-- An item whose key is already seen contributes nothing. -/
lemma backendProcessAux_skip (s : List String) (item : BItem) (xs : List BItem)
    (p : String × BRecord) (hn : backendNorm item = some p) (hs : p.1 ∈ s) :
    backendProcessAux s (item :: xs) = backendProcessAux s xs := by
  simp only [backendProcessAux, hn, if_pos hs]

/-- The deduplication key of an emitted record, as recomputed from its
normalized identity. -/
def recKey (r : BRecord) : String := r.subject ++ "_" ++ r.subject_code

/-- The key returned by `backendNorm` is the record's own key. -/
lemma backendNorm_key (item : BItem) (p : String × BRecord)
    (h : backendNorm item = some p) : recKey p.2 = p.1 :=
  ((backendNorm_fields item p.1 p.2 h).2.2).symm

/-- Loop invariant: no emitted record has a key in the seen-set, and the
emitted records have pairwise distinct keys. -/
lemma backendProcessAux_invariant : ∀ (l : List BItem) (s : List String),
    (∀ r ∈ backendProcessAux s l, recKey r ∉ s) ∧
    (backendProcessAux s l).Pairwise (fun a b => recKey a ≠ recKey b) := by
  intro l
  induction l with
  | nil =>
    intro s
    exact ⟨fun r h => absurd h (List.not_mem_nil r), List.Pairwise.nil⟩
  | cons item rest ih =>
    intro s
    cases hn : backendNorm item with
    | none => simpa only [backendProcessAux, hn] using ih s
    | some p =>
      by_cases hs : p.1 ∈ s
      · simpa only [backendProcessAux, hn, if_pos hs] using ih s
      · simp only [backendProcessAux, hn, if_neg hs]
        constructor
        · intro r hr
          rcases List.mem_cons.mp hr with h1 | h1
          · rw [h1, backendNorm_key item p hn]
            exact hs
          · intro hmem
            exact (ih (p.1 :: s)).1 r h1 (List.mem_cons_of_mem _ hmem)
        · refine List.Pairwise.cons ?_ (ih (p.1 :: s)).2
          intro b hb heq
          have hb1 := (ih (p.1 :: s)).1 b hb
          apply hb1
          rw [← heq, backendNorm_key item p hn]
          exact List.mem_cons_self _ _

/-- C6 counterexample: the scraper's `_process_attendance` performs no
deduplication — two raw records with the same identity both survive, so
"at most one record per identity after normalization" fails on this
normalizer. -/
theorem C6_counterexample :
    ¬ (scraper_process [⟨some "Math", some "M1", some 10, some 2, some 99, none, none⟩,
        ⟨some "Math", some "M1", some 10, some 2, some 99, none, none⟩]).Pairwise
      (fun a b => ¬(a.subject = b.subject ∧ a.subject_code = b.subject_code)) := by
  intro h
  have h2 := List.pairwise_cons.mp h
  exact h2.1 (scraper_process_item ⟨some "Math", some "M1", some 10, some 2, some 99, none, none⟩)
    (List.mem_cons_self _ _) ⟨rfl, rfl⟩

/-- C6 (amended): the backend normalizer `process_attendance` deduplicates:
its output has pairwise distinct identities, and a later raw record whose
key equals that of an earlier normalizable record is dropped without
affecting the output (first occurrence wins).  The scraper's
`_process_attendance` performs no deduplication. -/
theorem C6_dedup_first_wins (l1 l2 l3 : List BItem) (r rdup : BItem) (k : String)
    (rec1 rec2 : BRecord) (h1 : backendNorm r = some (k, rec1))
    (h2 : backendNorm rdup = some (k, rec2)) :
    process_attendance (l1 ++ r :: l2 ++ rdup :: l3) = process_attendance (l1 ++ r :: l2 ++ l3) ∧
    ∀ l : List BItem, (process_attendance l).Pairwise
      (fun a b => ¬(a.subject = b.subject ∧ a.subject_code = b.subject_code)) := by
  constructor
  · unfold process_attendance
    have hk : k ∈ seenAfter [] (l1 ++ r :: l2) := by
      rw [seenAfter_append l1 [] (r :: l2)]
      exact seenAfter_key r (seenAfter [] l1) (k, rec1) h1 l2
    rw [backendProcessAux_append (l1 ++ r :: l2) [] (rdup :: l3),
      backendProcessAux_append (l1 ++ r :: l2) [] l3,
      backendProcessAux_skip _ rdup l3 (k, rec2) h2 hk]
  · intro l
    refine ((backendProcessAux_invariant l []).2).imp ?_
    intro a b hab hEq
    apply hab
    unfold recKey
    rw [hEq.1, hEq.2]

/-- C6 witness: a concrete duplicate raw record is dropped and the output
identities are pairwise distinct. -/
theorem C6_dedup_first_wins_witness :
    process_attendance [bw, bw] = process_attendance [bw] ∧
    (process_attendance [bw, bw]).Pairwise
      (fun a b => ¬(a.subject = b.subject ∧ a.subject_code = b.subject_code)) := by
  have h := C6_dedup_first_wins [] [] [] bw bw "Math_M1" brec brec rfl rfl
  exact ⟨by simpa using h.1, h.2 [bw, bw]⟩

/-- A parsed JSON record as inspected by the response filters: only the key
set of an object record matters to them. -/
inductive JItem where
  | obj (keys : List String)
  | nonObj
deriving DecidableEq

/-- A parsed JSON document: an ordered sequence of records, or some other
JSON value. -/
inductive JData where
  | arr (l : List JItem)
  | nonArr
deriving DecidableEq

/-- A sniffed network response: HTTP status, URL, and the JSON parse of the
body (`none` when the body is not valid JSON). -/
structure Resp where
  status : ℕ
  url : String
  body : Option JData
deriving DecidableEq

/-- The attendance vocabulary of `UniversalScraper._looks_like_attendance`. -/
def scraperVocab : List String := ["present", "absent", "subject", "attendance", "faculty"]

/-- The attendance vocabulary of `ERPDiscovery._looks_like_attendance`,
lowercased as the code compares it. -/
def discoveryVocab : List String :=
  ["present", "absent", "attendance", "attended", "presentcount", "absentcount",
   "totalclasses", "subject", "subjectcode", "course", "faculty", "percentage", "percent"]

/-- Number of vocabulary entries occurring as a substring of some
(lowercased) key of the record. -/
def countVocab (vocab lowKeys : List String) : ℕ :=
  (vocab.filter (fun kw => lowKeys.any (fun k => strHasSub k kw))).length

/-- `UniversalScraper._looks_like_attendance` from `unitrack/core/scraper.py`. -/
def scraper_looks_like (d : JData) : Bool :=
  match d with
  | JData.arr (JItem.obj keys :: _) => decide (2 ≤ countVocab scraperVocab (keys.map strLower))
  | _ => false

/-- `ERPDiscovery._looks_like_attendance` from `unitrack/core/discovery.py`. -/
def discovery_looks_like (d : JData) : Bool :=
  match d with
  | JData.arr (JItem.obj keys :: _) => decide (2 ≤ countVocab discoveryVocab (keys.map strLower))
  | _ => false

/-- The records one response contributes to the scraper accumulator
(`capture_response` inside `UniversalScraper.fetch_attendance`): empty when
the response is filtered out.  With a configured `attendance_api`, any
status-200 JSON list from a matching URL is taken; otherwise the heuristic
path applies the URL, parse and vocabulary filters. -/
def scraper_capture (attendance_api : String) (resp : Resp) : List JItem :=
  if attendance_api ≠ "" then
    if strHasSub resp.url attendance_api then
      if resp.status = 200 then
        match resp.body with
        | some (JData.arr l) => l
        | _ => []
      else []
    else []
  else
    if resp.status = 200 ∧ strHasSub (strLower resp.url) ".json" then
      match resp.body with
      | some d =>
        if scraper_looks_like d then
          match d with
          | JData.arr l => l
          | JData.nonArr => []
        else []
      | none => []
    else []

/-- The records one response contributes to the backend accumulator
(`capture_response` in `backend/app.py`).  The key test models
`str(first.keys()).lower()` containment: a word matches iff it occurs in
some lowercased key. -/
def backend_capture (resp : Resp) : List JItem :=
  if resp.status = 200 then
    if strHasSub (strLower resp.url) ".json" ∨ strHasSub (strLower resp.url) "attendance" ∨
        strHasSub (strLower resp.url) "subject" then
      match resp.body with
      | some (JData.arr (JItem.obj keys :: rest)) =>
        if keys.any (fun kk => strHasSub (strLower kk) "present") ∨
            keys.any (fun kk => strHasSub (strLower kk) "absent") ∨
            keys.any (fun kk => strHasSub (strLower kk) "subject") then
          JItem.obj keys :: rest
        else []
      | _ => []
    else []
  else []

/-- C7 counterexample: the backend sniffer accepts a response whose first
record matches only ONE entry of the attendance vocabulary (its key set is
just `subject`), contradicting the claimed two-entry minimum. -/
theorem C7_counterexample :
    backend_capture ⟨200, "data.json", some (JData.arr [JItem.obj ["subject"]])⟩ =
      [JItem.obj ["subject"]] ∧
    countVocab scraperVocab ["subject"] = 1 ∧
    countVocab discoveryVocab ["subject"] = 1 := by
  refine ⟨?_, ?_, ?_⟩ <;> decide

/-- C7 (amended): acceptance conditions of each response filter.  The
scraper heuristic path (no configured API) and the discovery filter demand
a status-200 `.json`-like URL, a JSON body that is a non-empty list of
records, and at least two vocabulary matches on the first record; the
backend sniffer demands only at least one of present/absent/subject; the
configured-API path applies no vocabulary check at all. -/
theorem C7_sniffer_filter (resp : Resp) :
    (scraper_capture "" resp ≠ [] →
      resp.status = 200 ∧ strHasSub (strLower resp.url) ".json" = true ∧
      ∃ keys rest, resp.body = some (JData.arr (JItem.obj keys :: rest)) ∧
        2 ≤ countVocab scraperVocab (keys.map strLower)) ∧
    (∀ api : String, api ≠ "" → scraper_capture api resp ≠ [] →
      strHasSub resp.url api = true ∧ resp.status = 200 ∧
      ∃ l, resp.body = some (JData.arr l) ∧ l ≠ []) ∧
    (backend_capture resp ≠ [] →
      resp.status = 200 ∧
      (strHasSub (strLower resp.url) ".json" = true ∨
        strHasSub (strLower resp.url) "attendance" = true ∨
        strHasSub (strLower resp.url) "subject" = true) ∧
      ∃ keys rest, resp.body = some (JData.arr (JItem.obj keys :: rest)) ∧
        (keys.any (fun kk => strHasSub (strLower kk) "present") = true ∨
          keys.any (fun kk => strHasSub (strLower kk) "absent") = true ∨
          keys.any (fun kk => strHasSub (strLower kk) "subject") = true)) ∧
    (∀ d : JData, discovery_looks_like d = true →
      ∃ keys rest, d = JData.arr (JItem.obj keys :: rest) ∧
        2 ≤ countVocab discoveryVocab (keys.map strLower)) := by
  refine ⟨?_, ?_, ?_, ?_⟩
  · intro hne
    unfold scraper_capture at hne
    rw [if_neg (fun hx => hx rfl)] at hne
    split_ifs at hne with h1
    · cases hb : resp.body with
      | none => rw [hb] at hne; exact absurd rfl hne
      | some d =>
        rw [hb] at hne
        dsimp only at hne
        split_ifs at hne with h2
        · cases d with
          | nonArr => exact absurd rfl hne
          | arr l =>
            cases l with
            | nil => simp [scraper_looks_like] at h2
            | cons first rest =>
              cases first with
              | nonObj => simp [scraper_looks_like] at h2
              | obj keys =>
                simp only [scraper_looks_like] at h2
                exact ⟨h1.1, h1.2, keys, rest, rfl, of_decide_eq_true h2⟩
        · exact absurd rfl hne
    · exact absurd rfl hne
  · intro api hapi hne
    unfold scraper_capture at hne
    rw [if_pos hapi] at hne
    split_ifs at hne with h1 h2
    · cases hb : resp.body with
      | none => rw [hb] at hne; exact absurd rfl hne
      | some d =>
        rw [hb] at hne
        cases d with
        | nonArr => exact absurd rfl hne
        | arr l =>
          dsimp only at hne
          exact ⟨h1, h2, l, rfl, hne⟩
    · exact absurd rfl hne
    · exact absurd rfl hne
  · intro hne
    unfold backend_capture at hne
    split_ifs at hne with h1 h2
    · cases hb : resp.body with
      | none => rw [hb] at hne; exact absurd rfl hne
      | some d =>
        rw [hb] at hne
        cases d with
        | nonArr => exact absurd rfl hne
        | arr l =>
          cases l with
          | nil => exact absurd rfl hne
          | cons first rest =>
            cases first with
            | nonObj => exact absurd rfl hne
            | obj keys =>
              dsimp only at hne
              split_ifs at hne with h3
              · exact ⟨h1, h2, keys, rest, rfl, h3⟩
              · exact absurd rfl hne
    · exact absurd rfl hne
    · exact absurd rfl hne
  · intro d hd
    cases d with
    | nonArr => simp [discovery_looks_like] at hd
    | arr l =>
      cases l with
      | nil => simp [discovery_looks_like] at hd
      | cons first rest =>
        cases first with
        | nonObj => simp [discovery_looks_like] at hd
        | obj keys =>
          simp only [discovery_looks_like] at hd
          exact ⟨keys, rest, rfl, of_decide_eq_true hd⟩

/-- A response that passes the scraper heuristic filter. -/
def respW : Resp := ⟨200, "a.json", some (JData.arr [JItem.obj ["present", "absent"]])⟩

/-- C7 witness: a concrete accepted response meets every condition of the
heuristic path. -/
theorem C7_sniffer_filter_witness :
    respW.status = 200 ∧ strHasSub (strLower respW.url) ".json" = true ∧
    ∃ keys rest, respW.body = some (JData.arr (JItem.obj keys :: rest)) ∧
      2 ≤ countVocab scraperVocab (keys.map strLower) :=
  (C7_sniffer_filter respW).1 (by decide)

/-- Input record of `AttendanceCalculator.analyze_subject`: the dictionary
fields the code reads, with the `dict.get` defaults already applied. -/
structure AIn where
  subject : String
  subject_code : String
  present : ℤ
  total : ℤ
  percentage : ℚ
  faculty : String
  term : String
deriving DecidableEq

/-- `SubjectAnalysis` dataclass from `unitrack/core/calculator.py`. -/
structure SubjectAnalysis where
  subject : String
  subject_code : String
  present : ℤ
  total : ℤ
  percentage : ℚ
  status : String
  threshold : ℚ
  classes_needed : ℤ
  classes_can_miss : ℤ
  message : String
  faculty : String
  term : String
deriving DecidableEq

/-- The effective percentage used by `analyze_subject`: recomputed from
present/total only when the supplied percentage is 0 and total > 0. -/
def effPct (d : AIn) : ℚ :=
  if d.percentage = 0 ∧ d.total > 0 then (d.present : ℚ) / (d.total : ℚ) * 100
  else d.percentage

/-- `AttendanceCalculator.analyze_subject` from `unitrack/core/calculator.py`. -/
def analyze_subject (th : Thresholds) (d : AIn) : SubjectAnalysis :=
  let threshold := get_threshold th d.subject_code d.subject
  let percentage := effPct d
  let status := calculate_status th percentage threshold
  let classes_needed := calculate_classes_needed d.present d.total threshold
  let classes_can_miss := calculate_classes_can_miss d.present d.total threshold
  let message :=
    if status = "SAFE" then "Safe! Can miss " ++ toString classes_can_miss ++ " more class(es)"
    else if status = "CRITICAL" then
      "Critical! Can only miss " ++ toString classes_can_miss ++ " class(es)"
    else "Low! Need to attend " ++ toString classes_needed ++ " consecutive class(es)"
  ⟨d.subject, d.subject_code, d.present, d.total, pyRound2 percentage, status, threshold,
    classes_needed, classes_can_miss, message, d.faculty, d.term⟩

/-- The summary dictionary built by `analyze_all`. -/
structure Summary where
  total_subjects : ℕ
  safe_count : ℕ
  critical_count : ℕ
  low_count : ℕ
  overall_present : ℤ
  overall_total : ℤ
  overall_percentage : ℚ
  overall_status : String
deriving DecidableEq

/-- The result dictionary of `analyze_all`. -/
structure AnalysisResult where
  subjects : List SubjectAnalysis
  summary : Summary
deriving DecidableEq

/-- `AttendanceCalculator.analyze_all` from `unitrack/core/calculator.py`. -/
def analyze_all (th : Thresholds) (l : List AIn) : AnalysisResult :=
  let analyzed := l.map (analyze_subject th)
  let safe_count := (analyzed.filter (fun a => a.status == "SAFE")).length
  let critical_count := (analyzed.filter (fun a => a.status == "CRITICAL")).length
  let low_count :=
    (analyzed.filter (fun a => a.status != "SAFE" && a.status != "CRITICAL")).length
  let total_present : ℤ := (analyzed.map (fun a => a.present)).sum
  let total_conducted : ℤ := (analyzed.map (fun a => a.total)).sum
  let overall_percentage : ℚ :=
    if total_conducted > 0 then (total_present : ℚ) / (total_conducted : ℚ) * 100 else 0
  let overall_status := calculate_status th overall_percentage th.default
  ⟨analyzed, ⟨l.length, safe_count, critical_count, low_count, total_present, total_conducted,
    pyRound2 overall_percentage, overall_status⟩⟩

/-- Feeding an analysis dictionary back into `analyze_subject`: the fields
it reads from `to_dict()` output. -/
def analysis_to_input (a : SubjectAnalysis) : AIn :=
  ⟨a.subject, a.subject_code, a.present, a.total, a.percentage, a.faculty, a.term⟩

/-- The default `Thresholds()` configuration (75 / 10 / no custom rules). -/
def thD : Thresholds := ⟨75, 10, []⟩

/-- Resolution of the default thresholds for a subject with no custom rule. -/
lemma thD_resolve : get_threshold thD "C" "S" = 75 := rfl

/-- C8 counterexample: a record at 5000/6667 ≈ 74.996 % is LOW on the first
run, but its reported percentage rounds up to exactly 75.00, so re-running
`analyze_all` on the output classifies it CRITICAL — idempotence fails. -/
theorem C8_counterexample :
    ((analyze_all thD [⟨"S", "C", 5000, 6667, 0, "", ""⟩]).subjects.map (fun a => a.status)) =
      ["LOW"] ∧
    ((analyze_all thD ((analyze_all thD [⟨"S", "C", 5000, 6667, 0, "", ""⟩]).subjects.map
        analysis_to_input)).subjects.map (fun a => a.status)) = ["CRITICAL"] := by
  have h1 : effPct ⟨"S", "C", 5000, 6667, 0, "", ""⟩ = 500000 / 6667 := by
    unfold effPct
    rw [if_pos (by norm_num)]
    norm_num
  have hs1 : (analyze_subject thD ⟨"S", "C", 5000, 6667, 0, "", ""⟩).status = "LOW" := by
    show calculate_status thD (effPct ⟨"S", "C", 5000, 6667, 0, "", ""⟩)
      (get_threshold thD "C" "S") = "LOW"
    rw [h1, thD_resolve]
    unfold calculate_status
    rw [if_neg (by norm_num [thD]), if_neg (by norm_num)]
  have hp : (analyze_subject thD ⟨"S", "C", 5000, 6667, 0, "", ""⟩).percentage = 75 := by
    show pyRound2 (effPct ⟨"S", "C", 5000, 6667, 0, "", ""⟩) = 75
    rw [h1]
    unfold pyRound2 rround
    norm_num
  have he2 : effPct (analysis_to_input
      (analyze_subject thD ⟨"S", "C", 5000, 6667, 0, "", ""⟩)) = 75 := by
    unfold effPct analysis_to_input
    dsimp only
    rw [hp]
    rw [if_neg (fun hx => by norm_num at hx)]
  have hs2 : (analyze_subject thD (analysis_to_input
      (analyze_subject thD ⟨"S", "C", 5000, 6667, 0, "", ""⟩))).status = "CRITICAL" := by
    show calculate_status thD (effPct (analysis_to_input
      (analyze_subject thD ⟨"S", "C", 5000, 6667, 0, "", ""⟩))) (get_threshold thD "C" "S") =
      "CRITICAL"
    rw [he2, thD_resolve]
    unfold calculate_status
    rw [if_neg (by norm_num [thD]), if_pos (by norm_num)]
  constructor
  · show [(analyze_subject thD ⟨"S", "C", 5000, 6667, 0, "", ""⟩).status] = ["LOW"]
    rw [hs1]
  · show [(analyze_subject thD (analysis_to_input
      (analyze_subject thD ⟨"S", "C", 5000, 6667, 0, "", ""⟩))).status] = ["CRITICAL"]
    rw [hs2]

/-- One record is analysed identically on the second run provided its
effective percentage is a fixed point of 2-decimal rounding. -/
lemma analyze_subject_stable (th : Thresholds) (d : AIn)
    (hd : pyRound2 (effPct d) = effPct d) :
    (analyze_subject th (analysis_to_input (analyze_subject th d))).percentage =
      (analyze_subject th d).percentage ∧
    (analyze_subject th (analysis_to_input (analyze_subject th d))).status =
      (analyze_subject th d).status := by
  have heff : effPct (analysis_to_input (analyze_subject th d)) = effPct d := by
    show (if pyRound2 (effPct d) = 0 ∧ d.total > 0 then (d.present : ℚ) / (d.total : ℚ) * 100
      else pyRound2 (effPct d)) = effPct d
    rw [hd]
    by_cases hz : effPct d = 0 ∧ d.total > 0
    · rw [if_pos hz]
      by_cases hz2 : d.percentage = 0 ∧ d.total > 0
      · exact (show effPct d = (d.present : ℚ) / (d.total : ℚ) * 100 from by
          unfold effPct; rw [if_pos hz2]).symm
      · exfalso
        apply hz2
        refine ⟨?_, hz.2⟩
        have : effPct d = d.percentage := by unfold effPct; rw [if_neg hz2]
        rw [← this]
        exact hz.1
    · rw [if_neg hz]
  constructor
  · show pyRound2 (effPct (analysis_to_input (analyze_subject th d))) = pyRound2 (effPct d)
    rw [heff]
  · show calculate_status th (effPct (analysis_to_input (analyze_subject th d)))
        (get_threshold th d.subject_code d.subject) =
      calculate_status th (effPct d) (get_threshold th d.subject_code d.subject)
    rw [heff]

/-- C8 (amended): `analyzeAll` is idempotent on its own output — identical
per-subject percentages and statuses — provided every record's effective
percentage is unchanged by 2-decimal rounding; without that proviso the
rounding applied to the reported percentage can move a subject across a
band boundary on the second run. -/
theorem C8_idempotent (th : Thresholds) (l : List AIn)
    (h : ∀ d ∈ l, pyRound2 (effPct d) = effPct d) :
    ((analyze_all th ((analyze_all th l).subjects.map analysis_to_input)).subjects.map
        (fun a => a.percentage) =
      (analyze_all th l).subjects.map (fun a => a.percentage)) ∧
    ((analyze_all th ((analyze_all th l).subjects.map analysis_to_input)).subjects.map
        (fun a => a.status) =
      (analyze_all th l).subjects.map (fun a => a.status)) := by
  have hsub : ∀ m : List AIn, (analyze_all th m).subjects = m.map (analyze_subject th) :=
    fun m => rfl
  simp only [hsub, List.map_map]
  constructor
  · refine List.map_congr_left ?_
    intro d hd
    exact (analyze_subject_stable th d (h d hd)).1
  · refine List.map_congr_left ?_
    intro d hd
    exact (analyze_subject_stable th d (h d hd)).2

/-- C8 witness: a record at exactly 75 % is reproduced identically. -/
theorem C8_idempotent_witness :
    ((analyze_all thD ((analyze_all thD [⟨"S", "C", 3, 4, 0, "", ""⟩]).subjects.map
        analysis_to_input)).subjects.map (fun a => a.percentage) =
      (analyze_all thD [⟨"S", "C", 3, 4, 0, "", ""⟩]).subjects.map (fun a => a.percentage)) ∧
    ((analyze_all thD ((analyze_all thD [⟨"S", "C", 3, 4, 0, "", ""⟩]).subjects.map
        analysis_to_input)).subjects.map (fun a => a.status) =
      (analyze_all thD [⟨"S", "C", 3, 4, 0, "", ""⟩]).subjects.map (fun a => a.status)) := by
  refine C8_idempotent thD [⟨"S", "C", 3, 4, 0, "", ""⟩] ?_
  intro d hd
  rw [List.mem_singleton.mp hd]
  have he : effPct ⟨"S", "C", 3, 4, 0, "", ""⟩ = 75 := by
    unfold effPct
    rw [if_pos (by norm_num)]
    norm_num
  rw [he]
  unfold pyRound2 rround
  norm_num

/-- Outcome of the login check in `fetch_attendance_from_erp`
(`backend/app.py`): authenticated, or a classified failure with its error
message. -/
inductive LoginResult where
  | authenticated
  | failed (error : String)
deriving DecidableEq

/-- The post-submission URL checks of `fetch_attendance_from_erp`
(`backend/app.py`, lines 129-135), in source order. -/
def classify_login (url : String) : LoginResult :=
  if strHasSub (strLower url) "login" ∧ strHasSub (strLower url) "error" then
    LoginResult.failed "Invalid credentials"
  else if strHasSub (strLower url) "authfailed" then
    LoginResult.failed "Authentication failed"
  else LoginResult.authenticated

/-- C9 counterexample: a URL carrying the auth-failed marker together with
the login/error substrings is classified as invalid credentials, not as
the generic authentication failure the claim assigns to every URL
containing the marker. -/
theorem C9_counterexample :
    classify_login "erp.example/login?error=authfailed" =
      LoginResult.failed "Invalid credentials" ∧
    strHasSub (strLower "erp.example/login?error=authfailed") "authfailed" = true ∧
    LoginResult.failed "Invalid credentials" ≠ LoginResult.failed "Authentication failed" := by
  refine ⟨?_, ?_, ?_⟩ <;> decide

/-- C9 (amended): the flow is authenticated exactly when the URL matches
neither failure signature; a URL with both "login" and "error" yields the
invalid-credentials error; a URL with the auth-failed marker yields the
generic failure only when the first signature does not match (the checks
run in order); the two error messages are distinct. -/
theorem C9_login_classification (url : String) :
    (classify_login url = LoginResult.authenticated ↔
      ¬(strHasSub (strLower url) "login" = true ∧ strHasSub (strLower url) "error" = true) ∧
      ¬(strHasSub (strLower url) "authfailed" = true)) ∧
    (strHasSub (strLower url) "login" = true → strHasSub (strLower url) "error" = true →
      classify_login url = LoginResult.failed "Invalid credentials") ∧
    (strHasSub (strLower url) "authfailed" = true →
      ¬(strHasSub (strLower url) "login" = true ∧ strHasSub (strLower url) "error" = true) →
      classify_login url = LoginResult.failed "Authentication failed") ∧
    LoginResult.failed "Invalid credentials" ≠ LoginResult.failed "Authentication failed" := by
  unfold classify_login
  split_ifs with h1 h2
  · exact ⟨iff_of_false (by decide) (fun hc => hc.1 h1),
      fun _ _ => rfl, fun _ hno => absurd h1 hno, by decide⟩
  · exact ⟨iff_of_false (by decide) (fun hc => hc.2 h2),
      fun hl he => absurd ⟨hl, he⟩ h1, fun _ _ => rfl, by decide⟩
  · exact ⟨iff_of_true rfl ⟨h1, h2⟩,
      fun hl he => absurd ⟨hl, he⟩ h1, fun haf _ => absurd haf h2, by decide⟩

/-- C9 witness: concrete URLs exercising each branch. -/
theorem C9_login_classification_witness :
    classify_login "erp.example/home/dashboard" = LoginResult.authenticated ∧
    classify_login "erp.example/login?error=1" = LoginResult.failed "Invalid credentials" ∧
    classify_login "erp.example/authfailed" = LoginResult.failed "Authentication failed" := by
  refine ⟨?_, ?_, ?_⟩
  · exact (C9_login_classification "erp.example/home/dashboard").1.mpr (by decide)
  · exact (C9_login_classification "erp.example/login?error=1").2.1 (by decide) (by decide)
  · exact (C9_login_classification "erp.example/authfailed").2.2.1 (by decide) (by decide)

/-- C10 counterexample: two records share the same nonzero supplied
percentage (90) but differ in present/total, and get different
classes-needed results — the projections are recomputed from present and
total, not taken from the supplied percentage; status meanwhile uses the
supplied 90 and reports SAFE even though present/total is 50 %. -/
theorem C10_counterexample :
    (analyze_subject thD ⟨"S", "C", 50, 100, 90, "", ""⟩).classes_needed = 100 ∧
    (analyze_subject thD ⟨"S", "C", 90, 100, 90, "", ""⟩).classes_needed = 0 ∧
    (⟨"S", "C", 50, 100, 90, "", ""⟩ : AIn).percentage =
      (⟨"S", "C", 90, 100, 90, "", ""⟩ : AIn).percentage ∧
    (analyze_subject thD ⟨"S", "C", 50, 100, 90, "", ""⟩).status = "SAFE" := by
  refine ⟨?_, ?_, rfl, ?_⟩
  · show calculate_classes_needed 50 100 (get_threshold thD "C" "S") = 100
    rw [thD_resolve]
    unfold calculate_classes_needed
    dsimp only
    rw [if_neg (by norm_num), if_neg (by norm_num), if_neg (by norm_num)]
    norm_num
  · show calculate_classes_needed 90 100 (get_threshold thD "C" "S") = 0
    rw [thD_resolve]
    unfold calculate_classes_needed
    dsimp only
    rw [if_neg (by norm_num), if_pos (by norm_num)]
  · show calculate_status thD (effPct ⟨"S", "C", 50, 100, 90, "", ""⟩)
      (get_threshold thD "C" "S") = "SAFE"
    have he : effPct ⟨"S", "C", 50, 100, 90, "", ""⟩ = 90 := by
      unfold effPct
      rw [if_neg (fun hx => by norm_num at hx)]
    rw [he, thD_resolve]
    unfold calculate_status
    rw [if_pos (by norm_num [thD])]

/-- C10 (amended): a nonzero supplied percentage is used as-is (unrounded)
for the status band, and rounded to 2 decimals only in the reported
percentage field; classes-needed and classes-can-miss are always computed
from present and total regardless of the percentage field; present/total
derive the status percentage only when the supplied percentage is 0 and
total > 0. -/
theorem C10_percentage_use (th : Thresholds) (d : AIn) (h : d.percentage ≠ 0) :
    (analyze_subject th d).status =
      calculate_status th d.percentage (get_threshold th d.subject_code d.subject) ∧
    (analyze_subject th d).percentage = pyRound2 d.percentage ∧
    (analyze_subject th d).classes_needed =
      calculate_classes_needed d.present d.total (get_threshold th d.subject_code d.subject) ∧
    (analyze_subject th d).classes_can_miss =
      calculate_classes_can_miss d.present d.total (get_threshold th d.subject_code d.subject) ∧
    (∀ e : AIn, e.percentage = 0 → 0 < e.total →
      (analyze_subject th e).status =
        calculate_status th ((e.present : ℚ) / (e.total : ℚ) * 100)
          (get_threshold th e.subject_code e.subject)) := by
  have heff : effPct d = d.percentage := by
    unfold effPct
    rw [if_neg (fun hx => h hx.1)]
  refine ⟨?_, ?_, rfl, rfl, ?_⟩
  · show calculate_status th (effPct d) (get_threshold th d.subject_code d.subject) = _
    rw [heff]
  · show pyRound2 (effPct d) = _
    rw [heff]
  · intro e he1 he2
    have he : effPct e = (e.present : ℚ) / (e.total : ℚ) * 100 := by
      unfold effPct
      rw [if_pos ⟨he1, he2⟩]
    show calculate_status th (effPct e) (get_threshold th e.subject_code e.subject) = _
    rw [he]

/-- C10 witness: the record with supplied percentage 90 and 50/100
attendance is classified from the 90 while its projections come from
present/total. -/
theorem C10_percentage_use_witness :
    (analyze_subject thD ⟨"S", "C", 50, 100, 90, "", ""⟩).status =
      calculate_status thD (⟨"S", "C", 50, 100, 90, "", ""⟩ : AIn).percentage
        (get_threshold thD "C" "S") ∧
    (analyze_subject thD ⟨"S", "C", 50, 100, 90, "", ""⟩).classes_needed =
      calculate_classes_needed 50 100 (get_threshold thD "C" "S") := by
  have h := C10_percentage_use thD ⟨"S", "C", 50, 100, 90, "", ""⟩ (by norm_num)
  exact ⟨h.1, h.2.2.1⟩
